import Mathlib

/-!
Verification of the fibercop-data-api snapshot cache and ingestion pipeline.

The development shallowly embeds the core of the repository:
  - `cache.py` : the `DataCache` class (snapshot cache state, `update`,
    `set_error`, `set_fetching`) and its derived-view builder
    `build_derived_data`;
  - `fetcher.py` : the disk cache store (`get_cache_filename`,
    `load_csv_from_disk`, `save_csv_to_disk`, `cleanup_old_cache`) and the
    ingestion pipeline `fetch_and_parse_data`.

Mutable state becomes explicit state passing; Python exceptions become
`Except`/`Option` values threaded through the control flow, with the state
reached so far preserved when an exception propagates (as in Python);
wall-clock timestamps (`datetime.now()`) become explicit parameters.
-/

deriving instance DecidableEq for Except

namespace Fibercop

/-! ### Basic character and string utilities -/

/-- Decimal digit value of a character, `none` for a non-digit. -/
def digitVal? (c : Char) : Option Nat :=
  if '0' ≤ c ∧ c ≤ '9' then some (c.toNat - '0'.toNat) else none

/-- Character for a decimal digit (`n` is taken mod 10). -/
def digitChar (n : Nat) : Char := Char.ofNat (48 + n % 10)

/-- Numeric value of a big-endian list of digit values. -/
def digitsVal (ds : List Nat) : Nat := ds.foldl (fun a d => a * 10 + d) 0

/-- Whitespace as stripped by Python `float(str)`. -/
def isPyWs (c : Char) : Bool := c = ' ' ∨ c = '\t' ∨ c = '\n' ∨ c = '\r'

/-- Split a character list at every occurrence of `sep` (keeping empty parts),
as Python `str.split(sep)` for a one-character separator. -/
def splitOnChar (sep : Char) : List Char → List (List Char)
  | [] => [[]]
  | c :: cs =>
    match splitOnChar sep cs with
    | [] => [[]]
    | h :: t => if c = sep then [] :: h :: t else (c :: h) :: t

/-- Replace every non-overlapping occurrence of `pat` in `s` by `repl`,
scanning left to right, as Python `str.replace`.  `fuel` bounds the
recursion; any `fuel ≥ s.length` gives the replace-all behaviour for a
non-empty `pat` (the sources only call it with non-empty patterns). -/
def replaceList (pat repl : List Char) : Nat → List Char → List Char
  | _, [] => []
  | 0, s => s
  | fuel + 1, c :: cs =>
    if pat.isPrefixOf (c :: cs) then
      repl ++ replaceList pat repl fuel ((c :: cs).drop pat.length)
    else
      c :: replaceList pat repl fuel cs

/-- Python `haystack.replace(pat, repl)` on strings. -/
def pyReplace (haystack pat repl : String) : String :=
  ⟨replaceList pat.toList repl.toList haystack.toList.length haystack.toList⟩

/-! ### Python decimal parsing (`float(str)`)

The model covers the plain decimal forms (optional sign, digits, optional
fractional part, surrounding whitespace); the exponent, `inf`/`nan` and
underscore forms accepted by CPython do not occur in this dataset and are
treated as non-numeric.  A parsed value is kept as an exact decimal
`num / 10 ^ exp`; the builder only ever tests a coordinate for zero and
copies it verbatim, so exact decimals are a faithful value model. -/

/-- Exact decimal number `num / 10 ^ exp`. -/
structure Dec where
  num : Int
  exp : Nat
deriving DecidableEq

/-- Take the longest prefix of decimal digits. -/
def takeDigits : List Char → List Nat × List Char
  | [] => ([], [])
  | c :: cs =>
    match digitVal? c with
    | some v => let (ds, rest) := takeDigits cs; (v :: ds, rest)
    | none => ([], c :: cs)

/-- Parse an unsigned decimal literal occupying the whole input. -/
def parseUnsignedDec (cs : List Char) : Option Dec :=
  let (ip, rest) := takeDigits cs
  match rest with
  | [] => if ip = [] then none else some ⟨digitsVal ip, 0⟩
  | '.' :: rest2 =>
    let (fp, rest3) := takeDigits rest2
    if rest3 = [] ∧ (ip ≠ [] ∨ fp ≠ []) then
      some ⟨digitsVal ip * 10 ^ fp.length + digitsVal fp, fp.length⟩
    else none
  | _ => none

/-- Python `float(s)` for a string argument: `some` value on a decimal
literal, `none` where CPython raises `ValueError`. -/
def pyFloat? (s : String) : Option Dec :=
  let cs := ((s.toList.dropWhile isPyWs).reverse.dropWhile isPyWs).reverse
  match cs with
  | '+' :: rest => parseUnsignedDec rest
  | '-' :: rest => (parseUnsignedDec rest).map (fun d => ⟨-d.num, d.exp⟩)
  | _ => parseUnsignedDec cs

/-! ### Records -/

/-- One parsed CSV row: an ordered field-name/value mapping, as the dicts
produced by `csv.DictReader`. -/
abbrev Record := List (String × String)

/-- First-match association lookup, as Python `dict` access (the dicts built
by the sources have unique keys). -/
def alookup {κ α : Type} [DecidableEq κ] : List (κ × α) → κ → Option α
  | [], _ => none
  | (k, v) :: rest, key => if k = key then some v else alookup rest key

/-- Python `record.get(key, dflt)` for string values. -/
def Record.getD (r : Record) (key dflt : String) : String :=
  (alookup r key).getD dflt

/-! ### Dates (`datetime.date` at midnight)

The pipeline only ever compares dates at midnight, so a `datetime` value is
modelled by its calendar date. -/

structure Date where
  year : Nat
  month : Nat
  day : Nat
deriving DecidableEq

/-- Python `datetime` comparison restricted to midnight values:
lexicographic on (year, month, day). -/
def Date.ltb (a b : Date) : Bool :=
  a.year < b.year ∨ (a.year = b.year ∧
    (a.month < b.month ∨ (a.month = b.month ∧ a.day < b.day)))

/-- Gregorian leap year, as `calendar.isleap` / `datetime`. -/
def isLeapYear (y : Nat) : Bool := (y % 4 = 0 ∧ y % 100 ≠ 0) ∨ y % 400 = 0

/-- Number of days of a month (`m` between 1 and 12). -/
def daysInMonth (y m : Nat) : Nat :=
  if m = 2 then (if isLeapYear y then 29 else 28)
  else if m = 4 ∨ m = 6 ∨ m = 9 ∨ m = 11 then 30 else 31

/-- The range check done by the `datetime` constructor (Python accepts years
1 to 9999). -/
def isValidDate (d : Date) : Bool :=
  1 ≤ d.year ∧ d.year ≤ 9999 ∧ 1 ≤ d.month ∧ d.month ≤ 12 ∧
    1 ≤ d.day ∧ d.day ≤ daysInMonth d.year d.month

/-- Python `datetime(year, month, day)`: the value, or the `ValueError` the
constructor raises on an out-of-range component. -/
def mkDatetime (y m d : Nat) : Except String Date :=
  if isValidDate ⟨y, m, d⟩ then .ok ⟨y, m, d⟩
  else .error "date value out of range"

/-! ### The derived-view builder (`DataCache.build_derived_data`) -/

/-- One element of `list_data`: `{"id": idx, "lat": …, "lon": …, "type": …}`. -/
structure ListEntry where
  id : Nat
  lat : Dec
  lon : Dec
  type : String
deriving DecidableEq

/-- One element of `listmap_data`: the positional row
`[idx, lat, lon, tipo_code]`. -/
structure CompactEntry where
  id : Nat
  lat : Dec
  lon : Dec
  code : Nat
deriving DecidableEq

/-- The `stats_data` dict built at the end of `build_derived_data`. -/
structure Stats where
  total : Nat
  by_provincia : List (String × Nat)
  by_tipo : List (String × Nat)
  by_stato : List (String × Nat)
  by_availability_year : List (String × Nat)
  updated_at : String
deriving DecidableEq

/-- Everything `build_derived_data` writes into the cache under its final
lock: the three projections and the statistics. -/
structure Derived where
  list_data : List ListEntry
  listmap_data : List CompactEntry
  details_map : List (Nat × Record)
  stats : Stats
deriving DecidableEq

/-- `collections.Counter[key] += 1`: bump an existing key or append a new
one with count 1, preserving insertion order. -/
def counterAdd : List (String × Nat) → String → List (String × Nat)
  | [], k => [(k, 1)]
  | (k', n) :: rest, k =>
    if k' = k then (k', n + 1) :: rest else (k', n) :: counterAdd rest k

/-- Count `key` unless it is empty (the `if value:` guards of the loop). -/
def tallyIf (c : List (String × Nat)) (key : String) : List (String × Nat) :=
  if key = "" then c else counterAdd c key

/-- The availability-year tally: count the first four characters of
`DATA_DISPONIBILITA` when the field is non-empty of length at least 4. -/
def availTally (c : List (String × Nat)) (avail : String) : List (String × Nat) :=
  if avail ≠ "" ∧ 4 ≤ avail.length then
    counterAdd c ⟨avail.toList.take 4⟩
  else c

/-- Insert into a list sorted by count descending, after any earlier element
of equal count. -/
def insertDesc (x : String × Nat) : List (String × Nat) → List (String × Nat)
  | [] => [x]
  | y :: ys => if y.2 ≤ x.2 then x :: y :: ys else y :: insertDesc x ys

/-- Stable sort by count descending.  `Counter.most_common` sorts with
CPython's stable `sorted`/`heapq.nlargest`; a stable sort for a total
preorder is extensionally unique, so stable insertion sort is the same
function. -/
def sortByCountDesc : List (String × Nat) → List (String × Nat)
  | [] => []
  | x :: xs => insertDesc x (sortByCountDesc xs)

/-- Bool membership test among the keys of an association list
(Python `key in dict`). -/
def keyMem (l : List (String × Nat)) (k : String) : Bool :=
  l.any (fun p => p.1 = k)

/-- Python `dict[k] = v`: overwrite the existing entry for `k` in place, or
append a new one. -/
def dictSet : List (String × Nat) → String → Nat → List (String × Nat)
  | [], k, v => [(k, v)]
  | (k', v') :: rest, k, v =>
    if k' = k then (k', v) :: rest else (k', v') :: dictSet rest k v

/-- `dict(province_counter.most_common(20))`. -/
def topProvinces (pc : List (String × Nat)) : List (String × Nat) :=
  (sortByCountDesc pc).take 20

/-- The `other_count` sum over counter items whose key is not in the top-20
dict. -/
def otherCount (pc : List (String × Nat)) : Nat :=
  ((pc.filter (fun p => ! keyMem (topProvinces pc) p.1)).map Prod.snd).sum

/-- The final `by_provincia` dict: the top 20, with an `"OTHER"` entry
assigned when the remainder is positive. -/
def topProvincesWithOther (pc : List (String × Nat)) : List (String × Nat) :=
  if 0 < otherCount pc then dictSet (topProvinces pc) "OTHER" (otherCount pc)
  else topProvinces pc

/-- Python `float(x) or 0`: a zero (or negative-zero) float is falsy and is
replaced by the integer 0. -/
def pyOr0 (d : Dec) : Dec := if d.num = 0 then ⟨0, 0⟩ else d

/-- `float(record.get(key, 0))`: the integer default 0 parses to 0.0, a
present string field goes through `float(str)` and raises `ValueError`
(modelled as `.error`) when non-numeric. -/
def coordExc (r : Record) (key : String) : Except String Dec :=
  match alookup r key with
  | none => .ok ⟨0, 0⟩
  | some v =>
    match pyFloat? v with
    | some d => .ok d
    | none => .error ("could not convert string to float: " ++ v)

/-- Accumulator of the single pass of `build_derived_data`: the local
variables of the loop. -/
structure BuildAcc where
  list_data : List ListEntry
  listmap_data : List CompactEntry
  details_map : List (Nat × Record)
  province_counter : List (String × Nat)
  tipo_counter : List (String × Nat)
  stato_counter : List (String × Nat)
  availability_years : List (String × Nat)
deriving DecidableEq

def initAcc : BuildAcc := ⟨[], [], [], [], [], [], []⟩

/-- The body of the `for idx, record in enumerate(parsed_data)` loop.  The
two projections evaluate the same pure `float(...)` calls, hence share
values; the first failing conversion aborts the whole build. -/
def processRecord (acc : BuildAcc) (idx : Nat) (r : Record) :
    Except String BuildAcc := do
  let tipo := Record.getD r "TIPO" ""
  let tipoCode : Nat := if tipo = "CRO" then 0 else 1
  let lat ← coordExc r "LATITUDINE"
  let lon ← coordExc r "LONGITUDINE"
  .ok { list_data := acc.list_data ++ [⟨idx, pyOr0 lat, pyOr0 lon, tipo⟩]
        listmap_data := acc.listmap_data ++ [⟨idx, pyOr0 lat, pyOr0 lon, tipoCode⟩]
        details_map := acc.details_map ++ [(idx, r)]
        province_counter := tallyIf acc.province_counter (Record.getD r "PROVINCIA" "")
        tipo_counter := tallyIf acc.tipo_counter tipo
        stato_counter := tallyIf acc.stato_counter (Record.getD r "STATO" "")
        availability_years := availTally acc.availability_years
          (Record.getD r "DATA_DISPONIBILITA" "") }

/-- The whole loop. -/
def buildLoop (acc : BuildAcc) (idx : Nat) : List Record → Except String BuildAcc
  | [] => .ok acc
  | r :: rest =>
    match processRecord acc idx r with
    | .error e => .error e
    | .ok acc2 => buildLoop acc2 (idx + 1) rest

/-- `DataCache.build_derived_data` as a pure function of the parsed records
and of the build wall-clock timestamp (`datetime.now().isoformat()`), giving
the data written under the final lock, or the propagated exception. -/
def build_derived_data (records : List Record) (now : String) :
    Except String Derived :=
  match buildLoop initAcc 0 records with
  | .error e => .error e
  | .ok acc =>
    .ok { list_data := acc.list_data
          listmap_data := acc.listmap_data
          details_map := acc.details_map
          stats := { total := records.length
                     by_provincia := topProvincesWithOther acc.province_counter
                     by_tipo := acc.tipo_counter
                     by_stato := acc.stato_counter
                     by_availability_year := acc.availability_years
                     updated_at := now } }

/-! ### The snapshot cache (`DataCache`)

Each `with self._lock:` block of `cache.py` is one atomic state transition;
anything between two such blocks is a state readers can observe.  In
particular `DataCache.update` acquires the lock once for the raw-dataset
fields (lines 29-36) and `build_derived_data` acquires it again, later, for
the derived fields (lines 107-118). -/

structure CacheState where
  latest_date : Option Date
  parsed_data : List Record
  raw_csv_bytes : String
  original_filename : String
  last_fetch_time : Option String
  fetch_status : String
  last_error : Option String
  list_data : List ListEntry
  listmap_data : List CompactEntry
  details_map : List (Nat × Record)
  stats_data : Option Stats
deriving DecidableEq

/-- The state set up by `DataCache.__init__` (`stats_data` starts as the
empty dict, modelled by `none`). -/
def initialCache : CacheState :=
  { latest_date := none
    parsed_data := []
    raw_csv_bytes := ""
    original_filename := ""
    last_fetch_time := none
    fetch_status := "none"
    last_error := none
    list_data := []
    listmap_data := []
    details_map := []
    stats_data := none }

/-- `DataCache.set_error`: one locked block. -/
def DataCache.set_error (s : CacheState) (err : String) (now : String) : CacheState :=
  { s with last_fetch_time := some now, fetch_status := "error", last_error := some err }

/-- `DataCache.set_fetching`: one locked block. -/
def DataCache.set_fetching (s : CacheState) : CacheState :=
  { s with fetch_status := "fetching" }

/-- The first locked block of `DataCache.update` (lines 29-36): install the
raw dataset and mark success.  The lock is released afterwards, so this
state is visible to readers before the derived views are rebuilt. -/
def DataCache.updateRawStep (s : CacheState) (latest_date : Date)
    (parsed_data : List Record) (raw_csv_bytes original_filename now : String) :
    CacheState :=
  { s with latest_date := some latest_date
           parsed_data := parsed_data
           raw_csv_bytes := raw_csv_bytes
           original_filename := original_filename
           last_fetch_time := some now
           fetch_status := "success"
           last_error := none }

/-- The locked block at the end of `build_derived_data` (lines 107-118):
install the derived views. -/
def DataCache.installDerivedStep (s : CacheState) (d : Derived) : CacheState :=
  { s with list_data := d.list_data
           listmap_data := d.listmap_data
           details_map := d.details_map
           stats_data := some d.stats }

/-- `DataCache.update`: the raw-dataset block, then (after releasing the
lock) `build_derived_data`, whose own locked block installs the derived
views.  A `ValueError` raised inside the build propagates with the raw
block already applied. -/
def DataCache.update (s : CacheState) (latest_date : Date)
    (parsed_data : List Record) (raw_csv_bytes original_filename : String)
    (now buildNow : String) : CacheState × Except String Unit :=
  let s1 := DataCache.updateRawStep s latest_date parsed_data raw_csv_bytes
    original_filename now
  match build_derived_data parsed_data buildNow with
  | .error e => (s1, .error e)
  | .ok d => (DataCache.installDerivedStep s1 d, .ok ())

/-! ### The disk cache store (`fetcher.py`)

The cache directory is a mapping from file name to content; the payload
bytes are modelled by their text. -/

/-- Zero-padded two-digit rendering (`%m`, `%d`). -/
def pad2 (n : Nat) : List Char := [digitChar (n / 10 % 10), digitChar (n % 10)]

/-- Zero-padded four-digit rendering (`%Y`; the model assumes years of at
least 1000, where the platform variants of `strftime` agree). -/
def pad4 (n : Nat) : List Char :=
  [digitChar (n / 1000 % 10), digitChar (n / 100 % 10),
   digitChar (n / 10 % 10), digitChar (n % 10)]

/-- `date.strftime("%Y-%m-%d")`. -/
def strftimeYmd (d : Date) : String :=
  ⟨pad4 d.year ++ '-' :: pad2 d.month ++ '-' :: pad2 d.day⟩

/-- `get_cache_filename`. -/
def get_cache_filename (d : Date) : String :=
  "fibercop_" ++ strftimeYmd d ++ ".csv"

/-- Exactly four digits, as the `%Y` pattern of `_strptime`. -/
def parse4Digits : List Char → Option (Nat × List Char)
  | a :: b :: c :: d :: rest =>
    match digitVal? a, digitVal? b, digitVal? c, digitVal? d with
    | some x, some y, some z, some w =>
      some (x * 1000 + y * 100 + z * 10 + w, rest)
    | _, _, _, _ => none
  | _ => none

/-- The `%m` pattern `1[0-2]|0[1-9]|[1-9]` of `_strptime`, alternatives in
order.  When a two-digit alternative matches, the one-digit fallback would
leave a digit where the format requires a dash, so committing to it is
equivalent to regex backtracking. -/
def parseMonth : List Char → Option (Nat × List Char)
  | [] => none
  | c :: rest =>
    match digitVal? c with
    | none => none
    | some v1 =>
      match rest with
      | [] => if 1 ≤ v1 then some (v1, []) else none
      | c2 :: rest2 =>
        match digitVal? c2 with
        | none => if 1 ≤ v1 then some (v1, rest) else none
        | some v2 =>
          if v1 = 1 ∧ v2 ≤ 2 then some (10 + v2, rest2)
          else if v1 = 0 ∧ 1 ≤ v2 then some (v2, rest2)
          else if 1 ≤ v1 then some (v1, rest)
          else none

/-- The `%d` pattern `3[01]|[12]\d|0[1-9]|[1-9]` of `_strptime`. -/
def parseDay : List Char → Option (Nat × List Char)
  | [] => none
  | c :: rest =>
    match digitVal? c with
    | none => none
    | some v1 =>
      match rest with
      | [] => if 1 ≤ v1 then some (v1, []) else none
      | c2 :: rest2 =>
        match digitVal? c2 with
        | none => if 1 ≤ v1 then some (v1, rest) else none
        | some v2 =>
          if v1 = 3 ∧ v2 ≤ 1 then some (30 + v2, rest2)
          else if v1 = 1 ∨ v1 = 2 then some (10 * v1 + v2, rest2)
          else if v1 = 0 ∧ 1 ≤ v2 then some (v2, rest2)
          else if 1 ≤ v1 then some (v1, rest)
          else none

/-- `datetime.strptime(s, "%Y-%m-%d")`: the whole string must be consumed,
and the matched components must pass the `datetime` constructor. -/
def strptimeYmd (s : String) : Option Date :=
  match parse4Digits s.toList with
  | none => none
  | some (y, rest1) =>
    match rest1 with
    | [] => none
    | c1 :: r1 =>
      if c1 = '-' then
        match parseMonth r1 with
        | none => none
        | some (m, rest2) =>
          match rest2 with
          | [] => none
          | c2 :: r2 =>
            if c2 = '-' then
              match parseDay r2 with
              | none => none
              | some (d, rest3) =>
                match rest3 with
                | [] =>
                  if isValidDate ⟨y, m, d⟩ then some ⟨y, m, d⟩ else none
                | _ => none
            else none
      else none

/-- The date key recovered inside `cleanup_old_cache`:
`filename.replace("fibercop_", "").replace(".csv", "")` — note that
`str.replace` removes every occurrence, not only the prefix and suffix. -/
def stripCacheName (fname : String) : String :=
  pyReplace (pyReplace fname "fibercop_" "") ".csv" ""

/-- The per-file removal test of `cleanup_old_cache`: prefix check, then
`strptime` on the stripped name (a `ValueError` keeps the file), then a
strict comparison against the current date. -/
def shouldRemoveCacheFile (fname : String) (current : Date) : Bool :=
  "fibercop_".toList.isPrefixOf fname.toList &&
    match strptimeYmd (stripCacheName fname) with
    | some d => Date.ltb d current
    | none => false

/-- `cleanup_old_cache`: drop every listed file the test selects. -/
def cleanup_old_cache (current : Date) :
    List (String × String) → List (String × String)
  | [] => []
  | (fname, content) :: rest =>
    if shouldRemoveCacheFile fname current then cleanup_old_cache current rest
    else (fname, content) :: cleanup_old_cache current rest

/-- Python `dict`-style write of a file into the directory listing. -/
def fsWrite : List (String × String) → String → String → List (String × String)
  | [], k, v => [(k, v)]
  | (k', v') :: rest, k, v =>
    if k' = k then (k', v) :: rest else (k', v') :: fsWrite rest k v

/-- `save_csv_to_disk`: write the payload under the date-derived name, then
run retention cleanup with that same date. -/
def save_csv_to_disk (d : Date) (csv_bytes : String)
    (fs : List (String × String)) : List (String × String) :=
  cleanup_old_cache d (fsWrite fs (get_cache_filename d) csv_bytes)

/-- `load_csv_from_disk`: the payload and its path (the code takes the base
name of the path right after, so the name stands for both). -/
def load_csv_from_disk (fs : List (String × String)) (d : Date) :
    Option (String × String) :=
  (alookup fs (get_cache_filename d)).map (fun bytes => (bytes, get_cache_filename d))

/-! ### CSV parsing and the ingestion pipeline (`fetcher.py`) -/

/-- Strip one trailing carriage return, as the csv module does for CRLF. -/
def dropTrailingCR (cs : List Char) : List Char :=
  match cs.reverse with
  | '\r' :: rest => rest.reverse
  | _ => cs

/-- Numeric value of a digit-character list. -/
def charsVal (cs : List Char) : Nat :=
  digitsVal (cs.map (fun c => c.toNat - 48))

/-- `list(csv.DictReader(content, delimiter=";"))` for plain semicolon-
delimited text without quoting: first non-blank line is the header, each
further non-blank line is one record pairing header fields with the row
values positionally.  A short row yields a record without the trailing
fields, while `DictReader` would fill them with `None`; the model is only
applied to payloads whose rows are full-length, where the two agree.  A
long row's extra values are dropped. -/
def parseCsv (content : String) : List Record :=
  let lines := ((splitOnChar '\n' content.toList).map dropTrailingCR).filter
    (fun l => l ≠ [])
  match lines with
  | [] => []
  | header :: rows =>
    let fields := (splitOnChar ';' header).map (fun cs => (⟨cs⟩ : String))
    rows.map (fun row =>
      fields.zip ((splitOnChar ';' row).map (fun cs => (⟨cs⟩ : String))))

/-- Leftmost run of eight consecutive digits, as `re.search(r"(\d{8})", s)`. -/
def findDigitRun8 : List Char → Option (List Char)
  | [] => none
  | c :: cs =>
    if ((c :: cs).take 8).length = 8 ∧
        ((c :: cs).take 8).all (fun ch => (digitVal? ch).isSome) then
      some ((c :: cs).take 8)
    else findDigitRun8 cs

/-- `datetime(int(run[:4]), int(run[4:6]), int(run[6:8]))` for an 8-digit
run. -/
def dateOfRun (run : List Char) : Except String Date :=
  mkDatetime (charsVal (run.take 4)) (charsVal ((run.drop 4).take 2))
    (charsVal (run.drop 6))

/-- The archive scan of `fetch_and_parse_data`: the first zip entry whose
name ends in `.csv` and contains an 8-digit run (entries failing either
test are skipped). -/
def findCsvEntry : List (String × String) → Option (String × String × List Char)
  | [] => none
  | (name, bytes) :: rest =>
    if ".csv".toList.isSuffixOf name.toList then
      match findDigitRun8 name.toList with
      | some run => some (name, bytes, run)
      | none => findCsvEntry rest
    else findCsvEntry rest

/-- The environment one ingestion cycle runs against: today's wall-clock
date, the cache directory listing, the remote response (a network or HTTP
error, or the decompressed zip entries), and the wall-clock timestamp used
for the `datetime.now()` calls of the cycle. -/
structure Env where
  today : Date
  diskFiles : List (String × String)
  httpResponse : Except String (List (String × String))
  now : String

/-- The body of the `try:` block of `fetch_and_parse_data`.  The returned
cache state and directory listing are whatever the body has written by the
time it returns or raises; an exception does not undo already-applied
writes. -/
def pipelineBody (env : Env) (s : CacheState) :
    CacheState × List (String × String) × Except String Unit :=
  match load_csv_from_disk env.diskFiles env.today with
  | some (csv_bytes, cache_path) =>
    let csv_filename := cache_path
    let parsed_data := parseCsv csv_bytes
    let latest_date :=
      match findDigitRun8 csv_filename.toList with
      | some run => dateOfRun run
      | none => .ok env.today
    match latest_date with
    | .error e => (s, env.diskFiles, .error e)
    | .ok d =>
      match DataCache.update s d parsed_data csv_bytes csv_filename env.now env.now with
      | (s2, .error e) => (s2, env.diskFiles, .error e)
      | (s2, .ok _) => (s2, env.diskFiles, .ok ())
  | none =>
    match env.httpResponse with
    | .error e => (s, env.diskFiles, .error e)
    | .ok entries =>
      match findCsvEntry entries with
      | none => (s, env.diskFiles, .error "No CSV file with 8-digit date found in archive")
      | some (csv_filename, csv_bytes, run) =>
        match dateOfRun run with
        | .error e => (s, env.diskFiles, .error e)
        | .ok latest_date =>
          if csv_bytes = "" then
            (s, env.diskFiles, .error "No CSV file with 8-digit date found in archive")
          else
            let parsed_data := parseCsv csv_bytes
            match DataCache.update s latest_date parsed_data csv_bytes csv_filename
                env.now env.now with
            | (s2, .error e) => (s2, env.diskFiles, .error e)
            | (s2, .ok _) =>
              (s2, save_csv_to_disk env.today csv_bytes env.diskFiles, .ok ())

/-- The outcome of one cycle: the cache state, the cache directory, and the
messages handed to the alert collaborator (`send_telegram_alert` catches
its own failures, so it never raises back). -/
structure FetchResult where
  state : CacheState
  fs : List (String × String)
  alerts : List String
deriving DecidableEq

/-- `fetch_and_parse_data`: mark fetching, run the body, and on any raised
failure record the error and alert — the entry point itself always returns
normally. -/
def fetch_and_parse_data (env : Env) (s : CacheState) : FetchResult :=
  let s1 := DataCache.set_fetching s
  match pipelineBody env s1 with
  | (s2, fs2, .ok _) => ⟨s2, fs2, []⟩
  | (s2, fs2, .error e) =>
    let error_msg := "Failed to fetch/parse data: " ++ e
    ⟨DataCache.set_error s2 error_msg env.now, fs2, [error_msg]⟩

/-! ### Characterisation of a successful build -/

/-- Coordinate value produced for a record whose conversion succeeds. -/
def coordVal (r : Record) (key : String) : Dec :=
  match coordExc r key with
  | .ok d => d
  | .error _ => ⟨0, 0⟩

/-- The `list_data` entry built from the record at a position. -/
def entryOf (p : Nat × Record) : ListEntry :=
  ⟨p.1, pyOr0 (coordVal p.2 "LATITUDINE"), pyOr0 (coordVal p.2 "LONGITUDINE"),
    Record.getD p.2 "TIPO" ""⟩

/-- The `listmap_data` row built from the record at a position. -/
def compactOf (p : Nat × Record) : CompactEntry :=
  ⟨p.1, pyOr0 (coordVal p.2 "LATITUDINE"), pyOr0 (coordVal p.2 "LONGITUDINE"),
    if Record.getD p.2 "TIPO" "" = "CRO" then 0 else 1⟩

/-- The province counter accumulated over a record list. -/
def provCount (c : List (String × Nat)) (rs : List Record) : List (String × Nat) :=
  rs.foldl (fun c r => tallyIf c (Record.getD r "PROVINCIA" "")) c

/-- The type counter accumulated over a record list. -/
def tipoCount (c : List (String × Nat)) (rs : List Record) : List (String × Nat) :=
  rs.foldl (fun c r => tallyIf c (Record.getD r "TIPO" "")) c

/-- The status counter accumulated over a record list. -/
def statoCount (c : List (String × Nat)) (rs : List Record) : List (String × Nat) :=
  rs.foldl (fun c r => tallyIf c (Record.getD r "STATO" "")) c

/-- The availability-year counter accumulated over a record list. -/
def availCount (c : List (String × Nat)) (rs : List Record) : List (String × Nat) :=
  rs.foldl (fun c r => availTally c (Record.getD r "DATA_DISPONIBILITA" "")) c

theorem processRecord_ok {acc : BuildAcc} {idx : Nat} {r : Record} {acc2 : BuildAcc}
    (h : processRecord acc idx r = .ok acc2) :
    acc2 = { list_data := acc.list_data ++ [entryOf (idx, r)]
             listmap_data := acc.listmap_data ++ [compactOf (idx, r)]
             details_map := acc.details_map ++ [(idx, r)]
             province_counter := tallyIf acc.province_counter (Record.getD r "PROVINCIA" "")
             tipo_counter := tallyIf acc.tipo_counter (Record.getD r "TIPO" "")
             stato_counter := tallyIf acc.stato_counter (Record.getD r "STATO" "")
             availability_years := availTally acc.availability_years
               (Record.getD r "DATA_DISPONIBILITA" "") } := by
  unfold processRecord at h
  cases h1 : coordExc r "LATITUDINE" with
  | error e => rw [h1] at h; simp only [bind, Except.bind] at h; exact absurd h (by simp)
  | ok lat =>
    cases h2 : coordExc r "LONGITUDINE" with
    | error e =>
      rw [h1, h2] at h; simp only [bind, Except.bind] at h; exact absurd h (by simp)
    | ok lon =>
      rw [h1, h2] at h
      simp only [bind, Except.bind, Except.ok.injEq] at h
      subst h
      simp [entryOf, compactOf, coordVal, h1, h2]

theorem buildLoop_ok : ∀ (rs : List Record) {acc : BuildAcc} {idx : Nat}
    {res : BuildAcc}, buildLoop acc idx rs = .ok res →
    res.list_data = acc.list_data ++ (List.enumFrom idx rs).map entryOf ∧
    res.listmap_data = acc.listmap_data ++ (List.enumFrom idx rs).map compactOf ∧
    res.details_map = acc.details_map ++ List.enumFrom idx rs ∧
    res.province_counter = provCount acc.province_counter rs ∧
    res.tipo_counter = tipoCount acc.tipo_counter rs ∧
    res.stato_counter = statoCount acc.stato_counter rs ∧
    res.availability_years = availCount acc.availability_years rs := by
  intro rs
  induction rs with
  | nil =>
    intro acc idx res h
    simp only [buildLoop, Except.ok.injEq] at h
    subst h
    simp [provCount, tipoCount, statoCount, availCount]
  | cons r rest ih =>
    intro acc idx res h
    simp only [buildLoop] at h
    cases hp : processRecord acc idx r with
    | error e => rw [hp] at h; exact absurd h (by simp)
    | ok acc2 =>
      rw [hp] at h
      obtain ⟨e1, e2, e3, e4, e5, e6, e7⟩ := ih h
      rw [processRecord_ok hp] at e1 e2 e3 e4 e5 e6 e7
      refine ⟨?_, ?_, ?_, ?_, ?_, ?_, ?_⟩ <;>
        simp_all [provCount, tipoCount, statoCount, availCount, List.enumFrom_cons]

theorem build_derived_data_ok {records : List Record} {now : String} {out : Derived}
    (h : build_derived_data records now = .ok out) :
    out.list_data = (List.enumFrom 0 records).map entryOf ∧
    out.listmap_data = (List.enumFrom 0 records).map compactOf ∧
    out.details_map = List.enumFrom 0 records ∧
    out.stats.total = records.length ∧
    out.stats.by_provincia = topProvincesWithOther (provCount [] records) ∧
    out.stats.by_tipo = tipoCount [] records ∧
    out.stats.by_stato = statoCount [] records ∧
    out.stats.by_availability_year = availCount [] records ∧
    out.stats.updated_at = now := by
  unfold build_derived_data at h
  cases hb : buildLoop initAcc 0 records with
  | error e => rw [hb] at h; exact absurd h (by simp)
  | ok acc =>
    rw [hb] at h
    simp only [Except.ok.injEq] at h
    obtain ⟨e1, e2, e3, e4, e5, e6, e7⟩ := buildLoop_ok records hb
    subst h
    simp_all [initAcc]

/-! ### Claim C8 — status transitions leave the snapshot untouched -/

/-- C8: `set_error` changes only the fetch status (to "error"), the last
error message and the last fetch time, and `set_fetching` changes only the
fetch status (to "fetching"); every field of the last good snapshot — the
parsed records, raw CSV bytes, original filename, data date, list data,
listmap data, detail index and statistics — is unchanged by both, so
stale-but-available reads continue. -/
theorem C8_statusFrame (s : CacheState) (err now : String) :
    (DataCache.set_error s err now).fetch_status = "error" ∧
    (DataCache.set_error s err now).last_error = some err ∧
    (DataCache.set_error s err now).last_fetch_time = some now ∧
    (DataCache.set_error s err now).latest_date = s.latest_date ∧
    (DataCache.set_error s err now).parsed_data = s.parsed_data ∧
    (DataCache.set_error s err now).raw_csv_bytes = s.raw_csv_bytes ∧
    (DataCache.set_error s err now).original_filename = s.original_filename ∧
    (DataCache.set_error s err now).list_data = s.list_data ∧
    (DataCache.set_error s err now).listmap_data = s.listmap_data ∧
    (DataCache.set_error s err now).details_map = s.details_map ∧
    (DataCache.set_error s err now).stats_data = s.stats_data ∧
    (DataCache.set_fetching s).fetch_status = "fetching" ∧
    (DataCache.set_fetching s).latest_date = s.latest_date ∧
    (DataCache.set_fetching s).parsed_data = s.parsed_data ∧
    (DataCache.set_fetching s).raw_csv_bytes = s.raw_csv_bytes ∧
    (DataCache.set_fetching s).original_filename = s.original_filename ∧
    (DataCache.set_fetching s).last_fetch_time = s.last_fetch_time ∧
    (DataCache.set_fetching s).last_error = s.last_error ∧
    (DataCache.set_fetching s).list_data = s.list_data ∧
    (DataCache.set_fetching s).listmap_data = s.listmap_data ∧
    (DataCache.set_fetching s).details_map = s.details_map ∧
    (DataCache.set_fetching s).stats_data = s.stats_data := by
  refine ⟨rfl, rfl, rfl, rfl, rfl, rfl, rfl, rfl, rfl, rfl, rfl, rfl, rfl, rfl,
    rfl, rfl, rfl, rfl, rfl, rfl, rfl, rfl⟩

/-! ### Claim C7 — build is deterministic only up to the timestamp -/

/-- Every component of the build output except the `updated_at` build
timestamp. -/
def stripStamp (d : Derived) :
    List ListEntry × List CompactEntry × List (Nat × Record) × Nat ×
      List (String × Nat) × List (String × Nat) × List (String × Nat) ×
      List (String × Nat) :=
  (d.list_data, d.listmap_data, d.details_map, d.stats.total,
    d.stats.by_provincia, d.stats.by_tipo, d.stats.by_stato,
    d.stats.by_availability_year)

/-- C7 counterexample: two calls of the builder on the same (empty) input at
two wall-clock instants do not yield identical output — the `updated_at`
statistics field records each call's clock. -/
theorem C7_timestampCex :
    build_derived_data [] "2025-01-01T00:00:00"
      ≠ build_derived_data [] "2025-01-01T00:00:01" := by decide

/-- C7 (amended): calling the builder twice on the same input record
sequence yields identical output in every component except the
`updated_at` build timestamp — same list entries, compact entries, detail
index, and same statistics apart from that timestamp (and the same failure
when the build fails). -/
theorem C7_idempotentModuloStamp (records : List Record) (t1 t2 : String) :
    (build_derived_data records t1).map stripStamp
      = (build_derived_data records t2).map stripStamp := by
  unfold build_derived_data
  cases buildLoop initAcc 0 records <;> rfl

/-! ### Claim C3 — coordinate parsing -/

/-- First row of the spec's end-to-end scenario. -/
def specRow1 : Record :=
  [("PROVINCIA", "MILANO"), ("TIPO", "CRO"), ("LATITUDINE", "45.1"),
   ("LONGITUDINE", "9.2"), ("STATO", "DISPONIBILE"),
   ("DATA_DISPONIBILITA", "20230601")]

/-- Second row of the spec's end-to-end scenario (`;CNO;;;;`). -/
def specRow2 : Record :=
  [("PROVINCIA", ""), ("TIPO", "CNO"), ("LATITUDINE", ""),
   ("LONGITUDINE", ""), ("STATO", ""), ("DATA_DISPONIBILITA", "")]

/-- C3 (code bug): on the spec's own two-row scenario the second record has
an empty LATITUDINE value, `float("")` raises `ValueError`, and the whole
build fails instead of degrading that one record to coordinates (0, 0);
only a record whose coordinate fields are absent altogether gets the 0
default (second conjunct). -/
theorem C3_badCoordinate :
    build_derived_data [specRow1, specRow2] "T0"
        = .error "could not convert string to float: " ∧
    (build_derived_data [[("TIPO", "CNO")]] "T0").map
        (fun d => d.list_data.map (fun e => (e.lat, e.lon)))
      = .ok [(⟨0, 0⟩, ⟨0, 0⟩)] := by decide

/-! ### Claim C1 — the publish race window -/

/-- Cycle A's single-record dataset. -/
def dsA : List Record := [[("PROVINCIA", "ROMA")]]

/-- Cycle B's two-record dataset. -/
def dsB : List Record := [[("PROVINCIA", "MILANO")], [("PROVINCIA", "TORINO")]]

/-- State after cycle A published successfully. -/
def c1afterA : CacheState :=
  (DataCache.update initialCache ⟨2024, 1, 1⟩ dsA "rawA" "a.csv" "nA" "tA").1

/-- State cycle B's `update` exposes after its raw-dataset lock block and
before `build_derived_data` reacquires the lock. -/
def c1between : CacheState :=
  DataCache.updateRawStep c1afterA ⟨2024, 1, 2⟩ dsB "rawB" "b.csv" "nB"

/-- C1 (code bug): `update` publishes the raw dataset and the derived views
under two separate lock acquisitions; between them readers observe cycle
B's raw dataset (2 records, status "success", cycle B's data date) together
with cycle A's derived views (1 list entry, statistics total 1) — a visible
state mixing two cycles, so publication is not a single indivisible step. -/
theorem C1_raceWindow :
    c1between.parsed_data.length = 2 ∧
    c1between.fetch_status = "success" ∧
    c1between.latest_date = some ⟨2024, 1, 2⟩ ∧
    c1between.stats_data.map Stats.total = some 1 ∧
    c1between.list_data.length = 1 := by decide

/-! ### Claim C2 — failure inside the publish step -/

/-- The dataset published by the cycle preceding the failing one. -/
def recsGood : List Record :=
  [[("PROVINCIA", "ROMA"), ("TIPO", "CRO"), ("LATITUDINE", "41.9"),
    ("LONGITUDINE", "12.5")]]

/-- Cache state after that previous successful cycle. -/
def c2prev : CacheState :=
  (DataCache.update initialCache ⟨2024, 1, 19⟩ recsGood "raw0" "f0.csv" "n0" "t0").1

/-- A disk-cached payload whose second row has an empty LATITUDINE field. -/
def c2csvBad : String :=
  "PROVINCIA;TIPO;LATITUDINE;LONGITUDINE\nMILANO;CRO;45.1;9.2\n;CNO;;"

/-- Environment of the failing cycle: the payload for today is on disk. -/
def c2env : Env :=
  { today := ⟨2024, 1, 20⟩
    diskFiles := [("fibercop_2024-01-20.csv", c2csvBad)]
    httpResponse := .error "unused"
    now := "n1" }

/-- C2 (code bug): a failure raised inside the publish step (the
`ValueError` from `float("")` during `build_derived_data`) is caught, the
status is set to "error" with the failure message, the alert collaborator
is notified with that message and the entry point returns normally — but
the cycle has already replaced the previously published raw dataset (the
new two-record parse, new raw bytes, new data date) while the derived
views are still the previous cycle's, so the previous snapshot is not left
exactly as it was. -/
theorem C2_failureCycle :
    (fetch_and_parse_data c2env c2prev).state.fetch_status = "error" ∧
    (fetch_and_parse_data c2env c2prev).state.last_error
        = some "Failed to fetch/parse data: could not convert string to float: " ∧
    (fetch_and_parse_data c2env c2prev).alerts
        = ["Failed to fetch/parse data: could not convert string to float: "] ∧
    (fetch_and_parse_data c2env c2prev).state.parsed_data ≠ c2prev.parsed_data ∧
    (fetch_and_parse_data c2env c2prev).state.parsed_data.length = 2 ∧
    (fetch_and_parse_data c2env c2prev).state.raw_csv_bytes = c2csvBad ∧
    (fetch_and_parse_data c2env c2prev).state.latest_date = some ⟨2024, 1, 20⟩ ∧
    (fetch_and_parse_data c2env c2prev).state.stats_data = c2prev.stats_data ∧
    (fetch_and_parse_data c2env c2prev).state.list_data = c2prev.list_data := by
  decide

/-! ### Claim C10 — what retention cleanup may touch -/

theorem cleanup_old_cache_eq_filter (current : Date) (fs : List (String × String)) :
    cleanup_old_cache current fs
      = fs.filter (fun p => ! shouldRemoveCacheFile p.1 current) := by
  induction fs with
  | nil => rfl
  | cons p rest ih =>
    cases p with
    | mk fname content =>
      simp only [cleanup_old_cache, List.filter_cons]
      by_cases h : shouldRemoveCacheFile fname current <;> simp [h, ih]

theorem shouldRemoveCacheFile_iff (fname : String) (current : Date) :
    shouldRemoveCacheFile fname current = true ↔
      ("fibercop_".toList.isPrefixOf fname.toList = true ∧
        ∃ d, strptimeYmd (stripCacheName fname) = some d ∧
          Date.ltb d current = true) := by
  unfold shouldRemoveCacheFile
  cases h : strptimeYmd (stripCacheName fname) <;> simp [h]

/-- C10 counterexample: `str.replace` removes every occurrence of its
pattern, so the file `fibercop_fibercop_2020-01-01.csv` — whose remainder
after the `fibercop_` prefix, with `.csv` stripped, is
`fibercop_2020-01-01` and parses as no date — is nevertheless deleted by
cleanup. -/
theorem C10_replaceAllCex :
    cleanup_old_cache ⟨2024, 1, 3⟩ [("fibercop_fibercop_2020-01-01.csv", "x")]
        = [] ∧
    strptimeYmd "fibercop_2020-01-01" = none := by decide

/-- C10 (amended): cleanup removes a directory entry exactly when its name
starts with "fibercop_" and the name with every occurrence of "fibercop_"
and of ".csv" removed parses as a YYYY-MM-DD date strictly earlier than the
given date; every other file — including files with the prefix whose
stripped name is unparsable — is left untouched. -/
theorem C10_cleanupScope (current : Date) (fs : List (String × String))
    (p : String × String) :
    p ∈ cleanup_old_cache current fs ↔
      p ∈ fs ∧ ¬ ("fibercop_".toList.isPrefixOf p.1.toList = true ∧
        ∃ d, strptimeYmd (stripCacheName p.1) = some d ∧
          Date.ltb d current = true) := by
  rw [cleanup_old_cache_eq_filter, List.mem_filter, ← shouldRemoveCacheFile_iff]
  simp

/-! ### Claim C5 — sizes of the derived views and the detail index -/

theorem alookup_enumFrom (rs : List Record) : ∀ (k i : Nat) (h : i < rs.length),
    alookup (List.enumFrom k rs) (k + i) = some (rs.get ⟨i, h⟩) := by
  induction rs with
  | nil => intro k i h; simp at h
  | cons r rest ih =>
    intro k i h
    cases i with
    | zero => simp [List.enumFrom_cons, alookup]
    | succ n =>
      simp only [List.enumFrom_cons, alookup]
      rw [if_neg (by omega)]
      have h2 : n < rest.length := by simpa using Nat.lt_of_succ_lt_succ h
      have h3 := ih (k + 1) n h2
      rw [show k + 1 + n = k + (n + 1) from by omega] at h3
      rw [h3]
      rfl

/-- C5 counterexample: on a record with an empty LATITUDINE value the build
produces no views at all (the `ValueError` from `float("")` propagates), so
the claim's universally quantified "build produces …" fails. -/
theorem C5_buildFailsCex :
    build_derived_data [[("LATITUDINE", "")]] "T0"
      = .error "could not convert string to float: " := by decide

/-- C5 (amended): whenever the builder succeeds, the number of list entries,
the number of compact entries, the number of input records and the
statistics total all coincide, and the detail index maps every valid
0-based position to the corresponding input record. -/
theorem C5_lengthsAndIndex (records : List Record) (now : String) (out : Derived)
    (h : build_derived_data records now = .ok out) :
    out.list_data.length = records.length ∧
    out.listmap_data.length = records.length ∧
    out.stats.total = records.length ∧
    ∀ (i : Nat) (hi : i < records.length),
      alookup out.details_map i = some (records.get ⟨i, hi⟩) := by
  obtain ⟨e1, e2, e3, e4, -, -, -, -, -⟩ := build_derived_data_ok h
  refine ⟨?_, ?_, e4, ?_⟩
  · rw [e1]; simp
  · rw [e2]; simp
  · intro i hi
    rw [e3]
    simpa using alookup_enumFrom records 0 i hi

/-- Record used by the C5 and C9 witnesses (complete fields). -/
def w5rec1 : Record :=
  [("PROVINCIA", "MILANO"), ("TIPO", "CRO"), ("LATITUDINE", "45.1"),
   ("LONGITUDINE", "9.2")]

/-- Record used by the C5 and C9 witnesses (only a TIPO field). -/
def w5rec2 : Record := [("TIPO", "CNO")]

/-- Witness for C5: the amended statement applied to a concrete two-record
input on which the build succeeds. -/
theorem C5_lengthsAndIndex_witness :
    ∃ out, build_derived_data [w5rec1, w5rec2] "TW" = .ok out ∧
      out.list_data.length = 2 ∧ out.listmap_data.length = 2 ∧
      out.stats.total = 2 ∧ alookup out.details_map 1 = some w5rec2 := by
  cases h : build_derived_data [w5rec1, w5rec2] "TW" with
  | error e =>
    have hh : (build_derived_data [w5rec1, w5rec2] "TW").toOption.isSome = true := by
      decide
    rw [h] at hh
    simp [Except.toOption] at hh
  | ok out =>
    obtain ⟨h1, h2, h3, h4⟩ := C5_lengthsAndIndex [w5rec1, w5rec2] "TW" out h
    refine ⟨out, rfl, by simpa using h1, by simpa using h2, by simpa using h3, ?_⟩
    simpa using h4 1 (by simp)

/-! ### Claim C9 — the compact row encoding -/

theorem enumFrom_getElem? (rs : List Record) : ∀ (k i : Nat), i < rs.length →
    (List.enumFrom k rs)[i]? = some (k + i, rs[i]!) := by
  induction rs with
  | nil => intro k i h; simp at h
  | cons r rest ih =>
    intro k i h
    cases i with
    | zero => simp [List.enumFrom_cons]
    | succ n =>
      have h2 : n < rest.length := by simpa using Nat.lt_of_succ_lt_succ h
      have h3 := ih (k + 1) n h2
      rw [show k + 1 + n = k + (n + 1) from by omega] at h3
      simpa [List.enumFrom_cons, List.getElem!_cons_succ] using h3

/-- C9: whenever the builder succeeds, the i-th compact (listmap) row is
positionally [i, lat, lon, code] where lat and lon are identical to the lat
and lon of the i-th list entry and code is 0 exactly when the i-th record's
TIPO field equals "CRO" and 1 otherwise (a missing or empty TIPO field
gives 1). -/
theorem C9_compactEncoding (records : List Record) (now : String) (out : Derived)
    (h : build_derived_data records now = .ok out)
    (i : Nat) (hi : i < records.length) :
    ∃ e, out.list_data[i]? = some e ∧
      out.listmap_data[i]?
        = some ⟨i, e.lat, e.lon,
            if Record.getD records[i]! "TIPO" "" = "CRO" then 0 else 1⟩ := by
  obtain ⟨e1, e2, -, -, -, -, -, -, -⟩ := build_derived_data_ok h
  have he := enumFrom_getElem? records 0 i hi
  rw [Nat.zero_add] at he
  refine ⟨entryOf (i, records[i]!), ?_, ?_⟩
  · rw [e1, List.getElem?_map, he]; rfl
  · rw [e2, List.getElem?_map, he]; rfl

/-- Witness for C9: the statement applied to a concrete two-record input at
position 0 (type "CRO", hence code 0). -/
theorem C9_compactEncoding_witness :
    ∃ out, build_derived_data [w5rec1, w5rec2] "TX" = .ok out ∧
      ∃ e, out.list_data[0]? = some e ∧
        out.listmap_data[0]? = some ⟨0, e.lat, e.lon, 0⟩ := by
  cases h : build_derived_data [w5rec1, w5rec2] "TX" with
  | error e =>
    have hh : (build_derived_data [w5rec1, w5rec2] "TX").toOption.isSome = true := by
      decide
    rw [h] at hh
    simp [Except.toOption] at hh
  | ok out =>
    obtain ⟨e, h1, h2⟩ := C9_compactEncoding [w5rec1, w5rec2] "TX" out h 0 (by simp)
    refine ⟨out, rfl, e, h1, ?_⟩
    simpa [w5rec1, Record.getD, alookup] using h2

/-! ### Claim C4 — persistence and retention

The lemmas below recover `strptime(strftime(d))` and the behaviour of
`str.replace` on the generated cache file names. -/

theorem replaceList_no_occ (p0 : Char) (pt repl : List Char) (s : List Char)
    (h : ∀ c ∈ s, c ≠ p0) : ∀ fuel, replaceList (p0 :: pt) repl fuel s = s := by
  induction s with
  | nil => intro fuel; cases fuel <;> rfl
  | cons c cs ih =>
    intro fuel
    cases fuel with
    | zero => rfl
    | succ f =>
      have hc : (p0 == c) = false := by
        have := h c (by simp)
        simp [beq_eq_false_iff_ne]
        exact fun e => this e.symm
      simp only [replaceList, List.isPrefixOf, hc, Bool.false_and, Bool.false_eq_true,
        if_false]
      rw [ih (fun x hx => h x (by simp [hx])) f]

theorem replaceList_nil (pat repl : List Char) (fuel : Nat) :
    replaceList pat repl fuel [] = [] := by
  cases fuel <;> rfl

theorem replaceList_strip_head (p0 : Char) (pt rest : List Char)
    (h : ∀ c ∈ rest, c ≠ p0) (fuel : Nat) (hf : 1 ≤ fuel) :
    replaceList (p0 :: pt) [] fuel ((p0 :: pt) ++ rest) = rest := by
  cases fuel with
  | zero => omega
  | succ f =>
    have hpre : (p0 :: pt).isPrefixOf ((p0 :: pt) ++ rest) = true := by
      simp [List.isPrefixOf_iff_prefix]
    simp only [List.cons_append] at hpre ⊢
    simp only [replaceList, hpre, if_true, List.nil_append]
    have hdrop : (p0 :: (pt ++ rest)).drop (p0 :: pt).length = rest :=
      List.drop_left (p0 :: pt) rest
    rw [hdrop, replaceList_no_occ p0 pt [] rest h f]

theorem replaceList_strip_tail (p0 : Char) (pt : List Char) (s : List Char)
    (h : ∀ c ∈ s, c ≠ p0) : ∀ fuel, (s ++ p0 :: pt).length ≤ fuel →
      replaceList (p0 :: pt) [] fuel (s ++ (p0 :: pt)) = s := by
  induction s with
  | nil =>
    intro fuel hf
    simp only [List.length_append, List.length_nil, List.length_cons] at hf
    cases fuel with
    | zero => omega
    | succ f =>
      have hpre : (p0 :: pt).isPrefixOf ((p0 :: pt) ++ ([] : List Char)) = true := by
        simp [List.isPrefixOf_iff_prefix]
      simp only [List.append_nil] at hpre
      simp only [List.nil_append, replaceList, hpre, if_true, List.nil_append]
      have hdrop : (p0 :: pt).drop (p0 :: pt).length = ([] : List Char) :=
        List.drop_length _
      rw [hdrop, replaceList_nil]
  | cons c cs ih =>
    intro fuel hf
    simp only [List.length_append, List.length_cons] at hf
    cases fuel with
    | zero => omega
    | succ f =>
      have hc : (p0 == c) = false := by
        have := h c (by simp)
        simp [beq_eq_false_iff_ne]
        exact fun e => this e.symm
      simp only [List.cons_append, replaceList, List.isPrefixOf, hc, Bool.false_and,
        Bool.false_eq_true, if_false, List.append_eq]
      rw [ih (fun x hx => h x (by simp [hx])) f (by simp; omega)]

theorem digitVal?_digitChar (n : Nat) (h : n < 10) :
    digitVal? (digitChar n) = some n := by
  interval_cases n <;> decide

theorem digitChar_ne_f_dot (n : Nat) : digitChar n ≠ 'f' ∧ digitChar n ≠ '.' := by
  unfold digitChar
  have h : n % 10 < 10 := Nat.mod_lt _ (by norm_num)
  set k := n % 10 with hk
  interval_cases k <;> exact ⟨by decide, by decide⟩

theorem strftimeYmd_chars (d : Date) :
    ∀ c ∈ (strftimeYmd d).toList, c ≠ 'f' ∧ c ≠ '.' := by
  intro c hc
  have : (strftimeYmd d).toList
      = [digitChar (d.year / 1000 % 10), digitChar (d.year / 100 % 10),
         digitChar (d.year / 10 % 10), digitChar (d.year % 10), '-',
         digitChar (d.month / 10 % 10), digitChar (d.month % 10), '-',
         digitChar (d.day / 10 % 10), digitChar (d.day % 10)] := rfl
  rw [this] at hc
  simp only [List.mem_cons, List.not_mem_nil, or_false] at hc
  rcases hc with rfl | rfl | rfl | rfl | rfl | rfl | rfl | rfl | rfl | rfl <;>
    first
    | exact digitChar_ne_f_dot _
    | exact ⟨by decide, by decide⟩

theorem parse4Digits_pad4 (y : Nat) (tail : List Char) (h : y ≤ 9999) :
    parse4Digits (pad4 y ++ tail) = some (y, tail) := by
  have e1 := digitVal?_digitChar (y / 1000 % 10) (by omega)
  have e2 := digitVal?_digitChar (y / 100 % 10) (by omega)
  have e3 := digitVal?_digitChar (y / 10 % 10) (by omega)
  have e4 := digitVal?_digitChar (y % 10) (by omega)
  show parse4Digits (digitChar (y / 1000 % 10) :: digitChar (y / 100 % 10) ::
    digitChar (y / 10 % 10) :: digitChar (y % 10) :: tail) = some (y, tail)
  simp only [parse4Digits, e1, e2, e3, e4]
  have : y / 1000 % 10 * 1000 + y / 100 % 10 * 100 + y / 10 % 10 * 10 + y % 10 = y := by
    omega
  rw [this]

theorem parseMonth_pad2 (m : Nat) (tail : List Char) (h1 : 1 ≤ m) (h2 : m ≤ 12) :
    parseMonth (pad2 m ++ tail) = some (m, tail) := by
  interval_cases m <;> rfl

theorem parseDay_pad2 (n : Nat) (tail : List Char) (h1 : 1 ≤ n) (h2 : n ≤ 31) :
    parseDay (pad2 n ++ tail) = some (n, tail) := by
  interval_cases n <;> rfl

theorem strptime_strftime (d : Date) (hv : isValidDate d = true) :
    strptimeYmd (strftimeYmd d) = some d := by
  have hval : 1 ≤ d.year ∧ d.year ≤ 9999 ∧ 1 ≤ d.month ∧ d.month ≤ 12 ∧
      1 ≤ d.day ∧ d.day ≤ daysInMonth d.year d.month := by
    simpa [isValidDate] using hv
  have hd31 : d.day ≤ 31 := by
    have := hval.2.2.2.2.2
    unfold daysInMonth at this
    split at this <;> first | omega | (split at this <;> omega)
  unfold strptimeYmd
  have hlist : (strftimeYmd d).toList
      = pad4 d.year ++ ('-' :: (pad2 d.month ++ ('-' :: (pad2 d.day ++ [])))) := by
    simp [strftimeYmd, pad4, pad2]
  rw [hlist, parse4Digits_pad4 d.year _ hval.2.1]
  simp only [if_true]
  rw [parseMonth_pad2 d.month _ hval.2.2.1 hval.2.2.2.1]
  simp only [if_true]
  rw [parseDay_pad2 d.day _ hval.2.2.2.2.1 hd31]
  simp [hv]

theorem stripCacheName_filename (d : Date) :
    stripCacheName (get_cache_filename d) = strftimeYmd d := by
  have hfib : "fibercop_".toList = 'f' :: "ibercop_".toList := rfl
  have hcsv : ".csv".toList = '.' :: "csv".toList := rfl
  have hname : (get_cache_filename d).toList
      = "fibercop_".toList ++ ((strftimeYmd d).toList ++ ".csv".toList) := by
    simp [get_cache_filename, String.toList, String.data_append]
  have hrest : ∀ c ∈ (strftimeYmd d).toList ++ ".csv".toList, c ≠ 'f' := by
    intro c hc
    rcases List.mem_append.1 hc with h | h
    · exact (strftimeYmd_chars d c h).1
    · have h2 : c ∈ ['.', 'c', 's', 'v'] := h
      simp only [List.mem_cons, List.not_mem_nil, or_false] at h2
      rcases h2 with rfl | rfl | rfl | rfl <;> decide
  have hstrp : ∀ c ∈ (strftimeYmd d).toList, c ≠ '.' := by
    intro c hc; exact (strftimeYmd_chars d c hc).2
  have hemp : "".toList = ([] : List Char) := rfl
  unfold stripCacheName pyReplace
  rw [hemp, hname, hfib,
    replaceList_strip_head 'f' "ibercop_".toList _ hrest _ (by simp)]
  have hmk : (String.mk ((strftimeYmd d).toList ++ ".csv".toList)).toList
      = (strftimeYmd d).toList ++ ".csv".toList := rfl
  rw [hmk, hcsv,
    replaceList_strip_tail '.' "csv".toList _ hstrp _ (by rw [← hcsv])]
  rfl

theorem Date_ltb_irrefl (d : Date) : Date.ltb d d = false := by
  simp [Date.ltb]

theorem shouldRemove_own_file (d : Date) (hv : isValidDate d = true) :
    shouldRemoveCacheFile (get_cache_filename d) d = false := by
  unfold shouldRemoveCacheFile
  rw [stripCacheName_filename d, strptime_strftime d hv]
  simp [Date_ltb_irrefl]

theorem alookup_fsWrite_self (fs : List (String × String)) (k v : String) :
    alookup (fsWrite fs k v) k = some v := by
  induction fs with
  | nil => simp [fsWrite, alookup]
  | cons p rest ih =>
    cases p with
    | mk k' v' =>
      by_cases h : k' = k <;> simp [fsWrite, alookup, h, ih]

theorem mem_fsWrite : ∀ (fs : List (String × String)) (k v : String)
    (p : String × String), p ∈ fsWrite fs k v → p.1 = k ∨ p ∈ fs
  | [], k, v, p, h => by
    simp only [fsWrite, List.mem_singleton] at h
    subst h
    exact .inl rfl
  | (k', v') :: rest, k, v, p, h => by
    by_cases hk : k' = k
    · simp only [fsWrite, if_pos hk] at h
      rcases List.mem_cons.1 h with h1 | h1
      · subst h1; exact .inl hk
      · exact .inr (List.mem_cons_of_mem _ h1)
    · simp only [fsWrite, if_neg hk] at h
      rcases List.mem_cons.1 h with h1 | h1
      · subst h1; exact .inr (List.mem_cons_self _ _)
      · rcases mem_fsWrite rest k v p h1 with h2 | h2
        · exact .inl h2
        · exact .inr (List.mem_cons_of_mem _ h2)

theorem fsWrite_mem_of_ne : ∀ (fs : List (String × String)) (k v : String)
    (p : String × String), p ∈ fs → p.1 ≠ k → p ∈ fsWrite fs k v
  | [], _, _, _, hp, _ => by simp at hp
  | (k', v') :: rest, k, v, p, hp, hne => by
    rcases List.mem_cons.1 hp with h1 | h1
    · have hk : k' ≠ k := by
        subst h1
        exact hne
      simp only [fsWrite, if_neg hk]
      rw [h1]
      exact List.mem_cons_self _ _
    · by_cases hk : k' = k
      · simp only [fsWrite, if_pos hk]
        exact List.mem_cons_of_mem _ h1
      · simp only [fsWrite, if_neg hk]
        exact List.mem_cons_of_mem _ (fsWrite_mem_of_ne rest k v p h1 hne)

theorem alookup_cleanup (current : Date) (fs : List (String × String))
    (k v : String) (hk : alookup fs k = some v)
    (hkeep : shouldRemoveCacheFile k current = false) :
    alookup (cleanup_old_cache current fs) k = some v := by
  induction fs with
  | nil => simp [alookup] at hk
  | cons q rest ih =>
    cases q with
    | mk k' v' =>
      by_cases he : k' = k
      · have h2 : alookup ((k', v') :: rest) k = some v' := by simp [alookup, he]
        rw [h2] at hk
        have hkv : v' = v := Option.some.inj hk
        subst hkv
        simp [cleanup_old_cache, hkeep, alookup, he]
      · simp only [alookup, if_neg he] at hk
        by_cases hr : shouldRemoveCacheFile k' current <;>
          simp [cleanup_old_cache, hr, alookup, he, ih hk]

/-- Environment of the C4 counterexample: no disk hit for today
(2024-01-20), a cached file dated 2024-01-16, and a remote archive whose
dataset file is dated 2024-01-15. -/
def c4csvFile : String := "PROVINCIA;TIPO;LATITUDINE;LONGITUDINE\nMILANO;CRO;45.1;9.2"

def c4env : Env :=
  { today := ⟨2024, 1, 20⟩
    diskFiles := [("fibercop_2024-01-16.csv", "old")]
    httpResponse := .ok [("readme.txt", "x"), ("data_20240115.csv", c4csvFile)]
    now := "n2" }

/-- C4 counterexample: a successful remote ingestion whose published data
date (2024-01-15, extracted from the archive entry name) differs from
today's wall-clock date (2024-01-20).  The raw payload is persisted under
today's name, no file named from the published data date exists, and the
cached file dated 2024-01-16 — later than the published data date — is
removed by cleanup, all contradicting the claim's use of the data date. -/
theorem C4_dateKeyCex :
    (fetch_and_parse_data c4env initialCache).state.latest_date
        = some ⟨2024, 1, 15⟩ ∧
    (fetch_and_parse_data c4env initialCache).state.fetch_status = "success" ∧
    alookup (fetch_and_parse_data c4env initialCache).fs
        (get_cache_filename ⟨2024, 1, 15⟩) = none ∧
    alookup (fetch_and_parse_data c4env initialCache).fs
        "fibercop_2024-01-16.csv" = none ∧
    alookup (fetch_and_parse_data c4env initialCache).fs
        (get_cache_filename ⟨2024, 1, 20⟩) = some c4csvFile := by decide

/-- C4 (amended): after a successful ingestion the raw payload is persisted
under the file name derived from the date `save_csv_to_disk` is given —
which at its call site is today's wall-clock date, not the published data
date — and retention cleanup removes exactly the disk-cached payload files
whose name-embedded date is strictly earlier than that same date: the new
file is readable afterwards, every surviving entry is the new file or a
previous one the removal test rejects, and every previous file the test
rejects (other than the one overwritten) survives. -/
theorem C4_retention (fs : List (String × String)) (today : Date) (bytes : String)
    (hv : isValidDate today = true) (_hy : 1000 ≤ today.year) :
    alookup (save_csv_to_disk today bytes fs) (get_cache_filename today)
        = some bytes ∧
    (∀ p ∈ save_csv_to_disk today bytes fs,
      p.1 = get_cache_filename today ∨
        (p ∈ fs ∧ shouldRemoveCacheFile p.1 today = false)) ∧
    (∀ p ∈ fs, shouldRemoveCacheFile p.1 today = false →
      p.1 ≠ get_cache_filename today → p ∈ save_csv_to_disk today bytes fs) := by
  refine ⟨?_, ?_, ?_⟩
  · exact alookup_cleanup today _ _ _
      (alookup_fsWrite_self fs (get_cache_filename today) bytes)
      (shouldRemove_own_file today hv)
  · intro p hp
    rw [save_csv_to_disk, cleanup_old_cache_eq_filter, List.mem_filter] at hp
    rcases mem_fsWrite _ _ _ _ hp.1 with h | h
    · exact .inl h
    · refine .inr ⟨h, ?_⟩
      have := hp.2
      simpa using this
  · intro p hp hkeep hne
    rw [save_csv_to_disk, cleanup_old_cache_eq_filter, List.mem_filter]
    exact ⟨fsWrite_mem_of_ne fs _ bytes p hp hne, by simp [hkeep]⟩

/-- Directory of the C4 witness: the spec's retention example plus one file
outside the naming scheme. -/
def c4wfs : List (String × String) :=
  [("fibercop_2024-01-01.csv", "a"), ("fibercop_2024-01-02.csv", "b"),
   ("fibercop_2024-01-03.csv", "c"), ("notes.txt", "n")]

/-- Witness for C4: the amended statement applied to the spec's retention
example (files dated 2024-01-01/02/03, save dated 2024-01-03). -/
theorem C4_retention_witness :
    alookup (save_csv_to_disk ⟨2024, 1, 3⟩ "c2" c4wfs)
        (get_cache_filename ⟨2024, 1, 3⟩) = some "c2" ∧
    ("notes.txt", "n") ∈ save_csv_to_disk ⟨2024, 1, 3⟩ "c2" c4wfs :=
  ⟨(C4_retention c4wfs ⟨2024, 1, 3⟩ "c2" (by decide) (by decide)).1,
   (C4_retention c4wfs ⟨2024, 1, 3⟩ "c2" (by decide) (by decide)).2.2
     ("notes.txt", "n") (by decide) (by decide) (by decide)⟩

/-! ### Claim C6 — the province breakdown -/

/-- Sum of the `by_provincia` values excluding the "OTHER" key. -/
def sumExclOther (bp : List (String × Nat)) : Nat :=
  ((bp.filter (fun p => p.1 != "OTHER")).map Prod.snd).sum

/-- The "OTHER" value of `by_provincia`, 0 when absent. -/
def otherVal (bp : List (String × Nat)) : Nat := (alookup bp "OTHER").getD 0

/-- Presence of the "OTHER" key in `by_provincia`. -/
def hasOther (bp : List (String × Nat)) : Prop := "OTHER" ∈ bp.map Prod.fst

/-- Number of input records with a non-empty province field. -/
def countNonEmptyProv (rs : List Record) : Nat :=
  rs.countP (fun r => Record.getD r "PROVINCIA" "" != "")

/-- The non-empty province values occurring in the input, in order. -/
def provsOf (rs : List Record) : List String :=
  (rs.map (fun r => Record.getD r "PROVINCIA" "")).filter (fun s => s != "")

/-- Number of distinct non-empty province values occurring in the input. -/
def distinctProvs (rs : List Record) : Nat := (provsOf rs).dedup.length

theorem counterAdd_cons_self (k : String) (n : Nat) (rest : List (String × Nat)) :
    counterAdd ((k, n) :: rest) k = (k, n + 1) :: rest := by
  simp [counterAdd]

theorem counterAdd_cons_ne (q k : String) (n : Nat) (rest : List (String × Nat))
    (h : q ≠ k) : counterAdd ((q, n) :: rest) k = (q, n) :: counterAdd rest k := by
  simp [counterAdd, h]

theorem counterAdd_sum (c : List (String × Nat)) (k : String) :
    ((counterAdd c k).map Prod.snd).sum = (c.map Prod.snd).sum + 1 := by
  induction c with
  | nil => simp [counterAdd]
  | cons p rest ih =>
    obtain ⟨q, n⟩ := p
    by_cases h : q = k
    · subst h
      rw [counterAdd_cons_self]
      simp
      omega
    · rw [counterAdd_cons_ne q k n rest h]
      simp [ih]
      omega

theorem counterAdd_keys_iff (c : List (String × Nat)) (k k2 : String) :
    k2 ∈ (counterAdd c k).map Prod.fst ↔ k2 ∈ c.map Prod.fst ∨ k2 = k := by
  induction c with
  | nil => simp [counterAdd]
  | cons p rest ih =>
    obtain ⟨q, n⟩ := p
    by_cases h : q = k
    · subst h
      rw [counterAdd_cons_self]
      simp only [List.map_cons, List.mem_cons]
      tauto
    · rw [counterAdd_cons_ne q k n rest h]
      simp only [List.map_cons, List.mem_cons, ih]
      tauto

theorem counterAdd_keys_mem (c : List (String × Nat)) (k : String)
    (hk : k ∈ c.map Prod.fst) :
    (counterAdd c k).map Prod.fst = c.map Prod.fst := by
  induction c with
  | nil => simp at hk
  | cons p rest ih =>
    obtain ⟨q, n⟩ := p
    by_cases h : q = k
    · subst h
      rw [counterAdd_cons_self]
      simp
    · have hk2 : k ∈ rest.map Prod.fst := by
        simp only [List.map_cons, List.mem_cons] at hk
        rcases hk with h2 | h2
        · exact absurd h2.symm h
        · exact h2
      rw [counterAdd_cons_ne q k n rest h]
      simp [ih hk2]

theorem counterAdd_keys_notmem (c : List (String × Nat)) (k : String)
    (hk : k ∉ c.map Prod.fst) :
    (counterAdd c k).map Prod.fst = c.map Prod.fst ++ [k] := by
  induction c with
  | nil => simp [counterAdd]
  | cons p rest ih =>
    obtain ⟨q, n⟩ := p
    have hq : q ≠ k := by
      intro h; exact hk (by simp [h])
    have hk2 : k ∉ rest.map Prod.fst := by
      intro h; exact hk (by simp [h])
    rw [counterAdd_cons_ne q k n rest hq]
    simp [ih hk2]

theorem counterAdd_nodup (c : List (String × Nat)) (k : String)
    (h : (c.map Prod.fst).Nodup) : ((counterAdd c k).map Prod.fst).Nodup := by
  by_cases hk : k ∈ c.map Prod.fst
  · rw [counterAdd_keys_mem _ _ hk]; exact h
  · rw [counterAdd_keys_notmem _ _ hk]
    simp [List.nodup_append, h, hk]

theorem counterAdd_pos (c : List (String × Nat)) (k : String)
    (h : ∀ p ∈ c, 0 < p.2) : ∀ p ∈ counterAdd c k, 0 < p.2 := by
  induction c with
  | nil =>
    intro p hp
    simp only [counterAdd, List.mem_singleton] at hp
    subst hp
    simp
  | cons q rest ih =>
    obtain ⟨q1, n⟩ := q
    by_cases hq : q1 = k
    · subst hq
      rw [counterAdd_cons_self]
      intro p hp
      rcases List.mem_cons.1 hp with rfl | hp
      · simp
      · exact h p (List.mem_cons_of_mem _ hp)
    · rw [counterAdd_cons_ne _ _ _ _ hq]
      intro p hp
      rcases List.mem_cons.1 hp with rfl | hp
      · exact h _ (List.mem_cons_self _ _)
      · exact ih (fun x hx => h x (List.mem_cons_of_mem _ hx)) p hp

theorem tallyIf_sum (c : List (String × Nat)) (key : String) :
    ((tallyIf c key).map Prod.snd).sum
      = (c.map Prod.snd).sum + (if key = "" then 0 else 1) := by
  by_cases h : key = "" <;> simp [tallyIf, h, counterAdd_sum]

theorem tallyIf_keys_iff (c : List (String × Nat)) (key k2 : String) :
    k2 ∈ (tallyIf c key).map Prod.fst
      ↔ k2 ∈ c.map Prod.fst ∨ (key ≠ "" ∧ k2 = key) := by
  by_cases h : key = ""
  · simp [tallyIf, h]
  · unfold tallyIf
    rw [if_neg h, counterAdd_keys_iff]
    simp [h]

theorem tallyIf_nodup (c : List (String × Nat)) (key : String)
    (h : (c.map Prod.fst).Nodup) : ((tallyIf c key).map Prod.fst).Nodup := by
  by_cases hk : key = "" <;> simp [tallyIf, hk, counterAdd_nodup, h]

theorem tallyIf_pos (c : List (String × Nat)) (key : String)
    (h : ∀ p ∈ c, 0 < p.2) : ∀ p ∈ tallyIf c key, 0 < p.2 := by
  by_cases hk : key = ""
  · simpa [tallyIf, hk] using h
  · simpa [tallyIf, hk] using counterAdd_pos c key h

theorem provCount_sum (rs : List Record) : ∀ c : List (String × Nat),
    ((provCount c rs).map Prod.snd).sum
      = (c.map Prod.snd).sum + countNonEmptyProv rs := by
  induction rs with
  | nil => intro c; simp [provCount, countNonEmptyProv]
  | cons r rest ih =>
    intro c
    have h1 : provCount c (r :: rest)
        = provCount (tallyIf c (Record.getD r "PROVINCIA" "")) rest := rfl
    rw [h1, ih, tallyIf_sum]
    simp only [countNonEmptyProv, List.countP_cons]
    by_cases h : Record.getD r "PROVINCIA" "" = ""
    · simp [h, countNonEmptyProv]
    · simp [h, countNonEmptyProv]
      omega

theorem provCount_keys_iff (rs : List Record) : ∀ (c : List (String × Nat))
    (k2 : String), k2 ∈ (provCount c rs).map Prod.fst
      ↔ k2 ∈ c.map Prod.fst ∨ k2 ∈ provsOf rs := by
  induction rs with
  | nil => intro c k2; simp [provCount, provsOf]
  | cons r rest ih =>
    intro c k2
    have h1 : provCount c (r :: rest)
        = provCount (tallyIf c (Record.getD r "PROVINCIA" "")) rest := rfl
    have h3 : k2 ∈ provsOf (r :: rest)
        ↔ (Record.getD r "PROVINCIA" "" ≠ "" ∧ k2 = Record.getD r "PROVINCIA" "")
          ∨ k2 ∈ provsOf rest := by
      simp only [provsOf, List.map_cons, List.filter_cons]
      by_cases h : Record.getD r "PROVINCIA" "" = ""
      · simp [h]
      · simp [h]
    rw [h1, ih, tallyIf_keys_iff, h3]
    tauto

theorem provCount_nodup (rs : List Record) : ∀ c : List (String × Nat),
    (c.map Prod.fst).Nodup → ((provCount c rs).map Prod.fst).Nodup := by
  induction rs with
  | nil => intro c h; simpa [provCount] using h
  | cons r rest ih =>
    intro c h
    exact ih _ (tallyIf_nodup _ _ h)

theorem provCount_pos (rs : List Record) : ∀ c : List (String × Nat),
    (∀ p ∈ c, 0 < p.2) → ∀ p ∈ provCount c rs, 0 < p.2 := by
  induction rs with
  | nil => intro c h; simpa [provCount] using h
  | cons r rest ih =>
    intro c h
    exact ih _ (tallyIf_pos _ _ h)

theorem insertDesc_perm (x : String × Nat) (l : List (String × Nat)) :
    (insertDesc x l).Perm (x :: l) := by
  induction l with
  | nil => exact List.Perm.refl _
  | cons y ys ih =>
    by_cases h : y.2 ≤ x.2
    · simp only [insertDesc, if_pos h]
      exact List.Perm.refl _
    · simp only [insertDesc, if_neg h]
      exact (ih.cons y).trans (List.Perm.swap x y ys)

theorem sortByCountDesc_perm (l : List (String × Nat)) :
    (sortByCountDesc l).Perm l := by
  induction l with
  | nil => exact List.Perm.refl _
  | cons x xs ih => exact (insertDesc_perm x _).trans (ih.cons x)

theorem alookup_none_of_not_mem {α : Type} (l : List (String × α)) (k : String)
    (h : k ∉ l.map Prod.fst) : alookup l k = none := by
  induction l with
  | nil => rfl
  | cons p rest ih =>
    have h1 : p.1 ≠ k := by
      intro e; exact h (by simp [e])
    have h2 : k ∉ rest.map Prod.fst := by
      intro e; exact h (by simp [e])
    obtain ⟨q, v⟩ := p
    simp only [alookup]
    rw [if_neg h1, ih h2]

theorem alookup_append_left {α : Type} (l1 l2 : List (String × α)) (k : String)
    (h : k ∉ l1.map Prod.fst) : alookup (l1 ++ l2) k = alookup l2 k := by
  induction l1 with
  | nil => rfl
  | cons p rest ih =>
    have h1 : p.1 ≠ k := by
      intro e; exact h (by simp [e])
    have h2 : k ∉ rest.map Prod.fst := by
      intro e; exact h (by simp [e])
    obtain ⟨q, v⟩ := p
    simp only [List.cons_append, alookup, List.append_eq]
    rw [if_neg h1, ih h2]

theorem dictSet_append_of_not_mem (l : List (String × Nat)) (k : String) (v : Nat)
    (h : k ∉ l.map Prod.fst) : dictSet l k v = l ++ [(k, v)] := by
  induction l with
  | nil => rfl
  | cons p rest ih =>
    have h1 : p.1 ≠ k := by
      intro e; exact h (by simp [e])
    have h2 : k ∉ rest.map Prod.fst := by
      intro e; exact h (by simp [e])
    obtain ⟨q, v'⟩ := p
    simp only [dictSet, List.cons_append]
    rw [if_neg h1, ih h2]

theorem keyMem_iff (l : List (String × Nat)) (k : String) :
    keyMem l k = true ↔ k ∈ l.map Prod.fst := by
  simp [keyMem, List.any_eq_true]

theorem sum_pos_of_mem (l : List (String × Nat)) (p : String × Nat)
    (hp : p ∈ l) (hpos : 0 < p.2) : 0 < (l.map Prod.snd).sum := by
  induction l with
  | nil => simp at hp
  | cons q rest ih =>
    rcases List.mem_cons.1 hp with rfl | hp2
    · simp
      omega
    · simp
      have := ih hp2
      omega

theorem topProvinces_spec (pc : List (String × Nat))
    (hnd : (pc.map Prod.fst).Nodup) (hpos : ∀ p ∈ pc, 0 < p.2)
    (hno : "OTHER" ∉ pc.map Prod.fst) :
    sumExclOther (topProvincesWithOther pc) + otherVal (topProvincesWithOther pc)
        = (pc.map Prod.snd).sum ∧
    (hasOther (topProvincesWithOther pc) ↔ 20 < pc.length) := by
  set sorted := sortByCountDesc pc with hsorted
  have hperm : sorted.Perm pc := sortByCountDesc_perm pc
  set top := sorted.take 20 with htop
  set rest := sorted.drop 20 with hrest
  have hsplit : sorted = top ++ rest := by
    rw [htop, hrest]; exact (List.take_append_drop 20 sorted).symm
  have hkeys : (sorted.map Prod.fst).Nodup := ((hperm.map Prod.fst).nodup_iff).2 hnd
  have hnoS : "OTHER" ∉ sorted.map Prod.fst := fun h =>
    hno ((hperm.map Prod.fst).mem_iff.1 h)
  have hkeysTR : sorted.map Prod.fst = top.map Prod.fst ++ rest.map Prod.fst := by
    rw [hsplit, List.map_append]
  have hnoTop : "OTHER" ∉ top.map Prod.fst := by
    intro h; exact hnoS (by rw [hkeysTR]; exact List.mem_append_left _ h)
  have hdisj : ∀ p ∈ rest, p.1 ∉ top.map Prod.fst := by
    intro p hp hmem
    have h2 := hkeysTR ▸ hkeys
    rw [List.nodup_append] at h2
    exact h2.2.2 hmem (List.mem_map_of_mem Prod.fst hp)
  have htp : topProvinces pc = top := by rw [htop, hsorted]; rfl
  have hfilter : sorted.filter (fun p => ! keyMem top p.1) = rest := by
    rw [hsplit, List.filter_append]
    have h1 : top.filter (fun p => ! keyMem top p.1) = [] := by
      rw [List.filter_eq_nil_iff]
      intro p hp
      have hmem : keyMem top p.1 = true :=
        (keyMem_iff top p.1).2 (List.mem_map_of_mem Prod.fst hp)
      simp [hmem]
    have h2 : rest.filter (fun p => ! keyMem top p.1) = rest := by
      rw [List.filter_eq_self]
      intro p hp
      simp only [Bool.not_eq_true']
      rw [← Bool.not_eq_true]
      intro hmem
      exact hdisj p hp ((keyMem_iff top p.1).1 hmem)
    rw [h1, h2, List.nil_append]
  have hother : otherCount pc = (rest.map Prod.snd).sum := by
    unfold otherCount
    rw [htp]
    have hpf := (hperm.symm.filter (fun p => ! keyMem top p.1))
    have := (hpf.map Prod.snd).sum_eq
    rw [this, hfilter]
  have htot : (top.map Prod.snd).sum + (rest.map Prod.snd).sum
      = (pc.map Prod.snd).sum := by
    have h1 := (hperm.map Prod.snd).sum_eq
    rw [← h1, hsplit, List.map_append, List.sum_append]
  have hfe : top.filter (fun p => p.1 != "OTHER") = top := by
    rw [List.filter_eq_self]
    intro p hp
    rw [bne_iff_ne]
    intro e
    exact hnoTop (e ▸ List.mem_map_of_mem Prod.fst hp)
  have hlen : sorted.length = pc.length := hperm.length_eq
  by_cases hoc : 0 < otherCount pc
  · have hbp : topProvincesWithOther pc = top ++ [("OTHER", otherCount pc)] := by
      unfold topProvincesWithOther
      rw [if_pos hoc, htp, dictSet_append_of_not_mem top "OTHER" _ hnoTop]
    have hrne : rest ≠ [] := by
      intro e
      rw [e] at hother
      simp at hother
      omega
    have h20 : 20 < pc.length := by
      rw [hrest, ne_eq, List.drop_eq_nil_iff] at hrne
      omega
    constructor
    · rw [hbp]
      unfold sumExclOther otherVal
      rw [List.filter_append, hfe]
      have hf2 : List.filter (fun p => p.1 != "OTHER") [("OTHER", otherCount pc)]
          = [] := by simp
      rw [hf2, List.append_nil, alookup_append_left top _ "OTHER" hnoTop]
      simp only [alookup, if_pos rfl, Option.getD_some]
      rw [hother]
      exact htot
    · rw [hbp]
      constructor
      · intro _; exact h20
      · intro _
        unfold hasOther
        rw [List.map_append]
        exact List.mem_append_right _ (by simp)
  · have hoc0 : otherCount pc = 0 := by omega
    have hbp : topProvincesWithOther pc = top := by
      unfold topProvincesWithOther
      rw [if_neg hoc, htp]
    have hrs : (rest.map Prod.snd).sum = 0 := by rw [← hother]; exact hoc0
    constructor
    · rw [hbp]
      unfold sumExclOther otherVal
      rw [hfe, alookup_none_of_not_mem top "OTHER" hnoTop]
      simp only [Option.getD_none]
      omega
    · rw [hbp]
      constructor
      · intro h; exact absurd h hnoTop
      · intro hl
        exfalso
        have hsl : 20 < sorted.length := by omega
        have hrne : rest ≠ [] := by
          rw [hrest, ne_eq, List.drop_eq_nil_iff]
          omega
        obtain ⟨q, hq⟩ := List.exists_mem_of_ne_nil rest hrne
        have hqs : q ∈ sorted := by
          rw [hsplit]; exact List.mem_append_right _ hq
        have hqpos : 0 < q.2 := hpos q (hperm.mem_iff.1 hqs)
        have := sum_pos_of_mem rest q hq hqpos
        omega

theorem provCount_length_eq_distinct (rs : List Record) :
    (provCount [] rs).length = distinctProvs rs := by
  have h1 : ((provCount [] rs).map Prod.fst).Nodup :=
    provCount_nodup rs [] (by simp)
  have h2 : (provsOf rs).dedup.Nodup := List.nodup_dedup _
  have h3 : ∀ a, a ∈ (provCount [] rs).map Prod.fst ↔ a ∈ (provsOf rs).dedup := by
    intro a
    rw [List.mem_dedup]
    have := provCount_keys_iff rs [] a
    simpa using this
  have hperm := (List.perm_ext_iff_of_nodup h1 h2).2 h3
  have h4 := hperm.length_eq
  rw [List.length_map] at h4
  exact h4

/-- Records of the C6 counterexample: the province value "OTHER" occurs
twice, alongside 20 provinces occurring once each, so the real "OTHER"
province lands in the top 20 and is then overwritten by the synthetic
"OTHER" bucket. -/
def c6recs : List Record :=
  [[("PROVINCIA", "OTHER")], [("PROVINCIA", "OTHER")]] ++
    (List.range 20).map (fun i => [("PROVINCIA", "P" ++ toString i)])

/-- C6 counterexample: on `c6recs` the breakdown sums to 20 while 22 records
have a non-empty province (the count 2 of the real province "OTHER" is
overwritten by the remainder bucket 1); and on a single record with
province "OTHER" the "OTHER" key is present although only one distinct
province occurs, refuting the presence-iff-more-than-20 clause. -/
theorem C6_otherKeyCex :
    (build_derived_data c6recs "T0").toOption.map
        (fun d => sumExclOther d.stats.by_provincia + otherVal d.stats.by_provincia)
      = some 20 ∧
    countNonEmptyProv c6recs = 22 ∧
    (build_derived_data [[("PROVINCIA", "OTHER")]] "T0").toOption.map
        (fun d => keyMem d.stats.by_provincia "OTHER") = some true ∧
    distinctProvs [[("PROVINCIA", "OTHER")]] = 1 := by decide

/-- C6 (amended): for every input whose records never carry the province
value "OTHER", the published province breakdown satisfies the claim: the
sum of its values excluding the "OTHER" key plus the "OTHER" value (0 when
absent) equals the number of records with a non-empty province field, the
"OTHER" value equals that total minus the sum of the top-20 counts, and the
"OTHER" key is present exactly when more than 20 distinct non-empty
province values occur. -/
theorem C6_provinceBreakdown (records : List Record) (now : String) (out : Derived)
    (hok : build_derived_data records now = .ok out)
    (hno : ∀ r ∈ records, Record.getD r "PROVINCIA" "" ≠ "OTHER") :
    sumExclOther out.stats.by_provincia + otherVal out.stats.by_provincia
        = countNonEmptyProv records ∧
    otherVal out.stats.by_provincia
        = countNonEmptyProv records - sumExclOther out.stats.by_provincia ∧
    (hasOther out.stats.by_provincia ↔ 20 < distinctProvs records) := by
  obtain ⟨-, -, -, -, e5, -, -, -, -⟩ := build_derived_data_ok hok
  have hnd : ((provCount [] records).map Prod.fst).Nodup :=
    provCount_nodup records [] (by simp)
  have hpos : ∀ p ∈ provCount [] records, 0 < p.2 :=
    provCount_pos records [] (by simp)
  have hnoO : "OTHER" ∉ (provCount [] records).map Prod.fst := by
    rw [provCount_keys_iff]
    simp only [List.map_nil, List.not_mem_nil, false_or]
    intro hmem
    unfold provsOf at hmem
    rcases List.mem_filter.1 hmem with ⟨hmem2, -⟩
    rcases List.mem_map.1 hmem2 with ⟨r, hr, he⟩
    exact hno r hr he
  have hsum : ((provCount [] records).map Prod.snd).sum
      = countNonEmptyProv records := by
    have := provCount_sum records []
    simpa using this
  obtain ⟨hA, hB⟩ := topProvinces_spec (provCount [] records) hnd hpos hnoO
  rw [e5]
  rw [hsum] at hA
  rw [provCount_length_eq_distinct records] at hB
  exact ⟨hA, by omega, hB⟩

/-- Witness for C6: the amended statement applied to a one-record input. -/
theorem C6_provinceBreakdown_witness :
    ∃ out, build_derived_data [[("PROVINCIA", "MILANO")]] "TW" = .ok out ∧
      sumExclOther out.stats.by_provincia + otherVal out.stats.by_provincia
          = countNonEmptyProv [[("PROVINCIA", "MILANO")]] ∧
      (hasOther out.stats.by_provincia ↔
        20 < distinctProvs [[("PROVINCIA", "MILANO")]]) := by
  cases h : build_derived_data [[("PROVINCIA", "MILANO")]] "TW" with
  | error e =>
    have hh : (build_derived_data [[("PROVINCIA", "MILANO")]] "TW").toOption.isSome
        = true := by decide
    rw [h] at hh
    simp [Except.toOption] at hh
  | ok out =>
    obtain ⟨h1, -, h3⟩ := C6_provinceBreakdown [[("PROVINCIA", "MILANO")]] "TW" out h
      (by decide)
    exact ⟨out, rfl, h1, h3⟩

end Fibercop
